import Mathlib

set_option maxHeartbeats 4000000
set_option maxRecDepth 4000

/-!
Verification development for the automatic code review engine.

The development shallowly embeds the two analysis pipelines of the
repository:

- the command risk engine of command_analyzer.py
  (analyze_command, _looks_like_python, _analyze_python_syntax_check,
  _generate_corrected_code), and
- the quality scoring engine of analyzer.py (analyze_code).

Pure Python string manipulation is translated directly.  The fixed
regular-expression tables are evaluated by a small executable
backtracking matcher covering exactly the constructs the tables use
(literals, character classes, the shorthand classes for whitespace and
word characters, the any-character dot, greedy star and plus, and the
word boundary).  External collaborators (the Python ast parser, pylint,
radon, the filesystem) are parameters of the embedding, so theorems
quantify over their outcomes.
-/

/-! ## Character and list utilities mirroring Python string methods -/

/-- The ASCII whitespace set of the Python str.strip default, of the
regex shorthand class for whitespace, and of str.split with no
argument. -/
def isWsChar (c : Char) : Bool :=
  c == ' ' || c == '\t' || c == '\n' || c == '\r' || c == '\x0b' || c == '\x0c'

/-- ASCII word characters, the regex shorthand class. -/
def isWordChar (c : Char) : Bool :=
  ('a' ≤ c && c ≤ 'z') || ('A' ≤ c && c ≤ 'Z') || ('0' ≤ c && c ≤ '9') || c == '_'

/-- ASCII lower casing of one character, the effect of Python str.lower
on the ASCII strings handled here. -/
def asciiLower (c : Char) : Char :=
  if 'A' ≤ c && c ≤ 'Z' then Char.ofNat (c.toNat + 32) else c

/-- Boolean list-prefix test. -/
def isPrefB : List Char → List Char → Bool
  | [], _ => true
  | _ :: _, [] => false
  | a :: as, b :: bs => a == b && isPrefB as bs

/-- Boolean substring containment, the Python infix membership test on
strings. -/
def substrB (needle : List Char) : List Char → Bool
  | [] => needle.isEmpty
  | c :: cs => isPrefB needle (c :: cs) || substrB needle cs

/-- Python str.strip with no argument: drop leading and trailing
whitespace. -/
def pyStrip (l : List Char) : List Char :=
  let m := l.dropWhile isWsChar
  (m.reverse.dropWhile isWsChar).reverse

/-- Python str.split on a single newline separator. -/
def splitOnNl : List Char → List (List Char)
  | [] => [[]]
  | c :: cs =>
    if c = '\n' then [] :: splitOnNl cs
    else
      match splitOnNl cs with
      | [] => [[c]]
      | w :: ws => (c :: w) :: ws

/-- Python str.join with a newline separator. -/
def joinNl : List (List Char) → List Char
  | [] => []
  | [l] => l
  | l :: ls => l ++ '\n' :: joinNl ls

/-- Helper of pyWords: accumulate the current word in reverse. -/
def wordsAux : List Char → List Char → List (List Char)
  | [], cur => if cur.isEmpty then [] else [cur.reverse]
  | c :: cs, cur =>
    if isWsChar c then
      if cur.isEmpty then wordsAux cs [] else cur.reverse :: wordsAux cs []
    else wordsAux cs (c :: cur)

/-- Python str.split with no argument: whitespace-run split, no empty
words. -/
def pyWords (l : List Char) : List (List Char) := wordsAux l []

/-- Rebuild a string from a character list. -/
def strOfL (l : List Char) : String := ⟨l⟩

/-- The character list of a command after ASCII lower casing, the value
of the Python lower method used by the case-insensitive paths. -/
def lowerOf (cmd : String) : List Char := cmd.data.map asciiLower

/-- Python str.islower restricted to ASCII: at least one letter and no
uppercase letter. -/
def pyIslower (s : String) : Bool :=
  s.data.any (fun c => ('a' ≤ c && c ≤ 'z') || ('A' ≤ c && c ≤ 'Z')) &&
    s.data.all (fun c => !('A' ≤ c && c ≤ 'Z'))

/-- Helper of pyIstitle: walk the characters tracking whether the
previous character was a letter and whether any letter was seen. -/
def istitleAux : List Char → Bool → Bool → Bool
  | [], _, found => found
  | c :: cs, prevCased, found =>
    if 'A' ≤ c && c ≤ 'Z' then
      if prevCased then false else istitleAux cs true true
    else if 'a' ≤ c && c ≤ 'z' then
      if prevCased then istitleAux cs true true else false
    else istitleAux cs false found

/-- Python str.istitle restricted to ASCII. -/
def pyIstitle (s : String) : Bool := istitleAux s.data false false

/-- Python os.path.basename restricted to plain slash-separated paths. -/
def basenameOf (filepath : String) : String :=
  strOfL (filepath.data.foldl (fun acc c => if c = '/' then [] else acc ++ [c]) [])

/-- Drop a trailing empty chunk, the difference between splitlines and a
split on a newline. -/
def dropLastEmpty : List (List Char) → List (List Char)
  | [] => []
  | [l] => if l.isEmpty then [] else [l]
  | l :: ls => l :: dropLastEmpty ls

/-- Python str.splitlines for text whose line breaks are newlines. -/
def pySplitlines (s : String) : List String :=
  (dropLastEmpty (splitOnNl s.data)).map strOfL

/-! ## A small executable regex matcher

Exactly the constructs of the fixed pattern tables: character literals,
character classes with optional negation, the whitespace and word
shorthand classes, the any-character dot (not matching a newline),
greedy star over a single element, and the word boundary.  A plus is
written as an element followed by its star.  The Python IGNORECASE flag
of the command scans is modelled by lower casing both the subject (once,
up front) and the pattern literals (written lower cased in the tables
below); the print-statement checks carry no flag and match the original
subject. -/

inductive RElem where
  | lit (c : Char)
  | cls (neg : Bool) (ranges : List (Char × Char))
  | ws
  | wd
  | any
deriving DecidableEq

inductive RPiece where
  | once (e : RElem)
  | star (e : RElem)
  | wb
deriving DecidableEq

abbrev Regex := List RPiece

/-- Does a single element match a character. -/
def matchElem : RElem → Char → Bool
  | .lit d, c => c == d
  | .cls neg rs, c => (rs.any (fun r => r.1 ≤ c && c ≤ r.2)) != neg
  | .ws, c => isWsChar c
  | .wd, c => isWordChar c
  | .any, c => c != '\n'

/-- Is a character position a word boundary, given the character before
it and the character at it (none at either edge). -/
def isWordOpt : Option Char → Bool
  | none => false
  | some c => isWordChar c

def atBoundary (prev next : Option Char) : Bool :=
  isWordOpt prev != isWordOpt next

/-- Longest-first search over star repetition counts: greedy matching
with backtracking. -/
def firstSomeDesc (f : Nat → Option Nat) : Nat → Option Nat
  | 0 => f 0
  | n + 1 =>
    match f (n + 1) with
    | some r => some r
    | none => firstSomeDesc f n

/-- Length of the longest prefix whose characters all match an element. -/
def runLen (e : RElem) : List Char → Nat
  | [] => 0
  | c :: cs => if matchElem e c then runLen e cs + 1 else 0

/-- Try to match a whole pattern at the head of the subject, returning
the number of characters consumed.  prev is the character before the
current position, for word boundaries.  Stars are greedy and backtrack,
the leftmost-greedy behaviour of the Python matcher on these tables. -/
def tryMatch : Regex → List Char → Option Char → Option Nat
  | [], _, _ => some 0
  | .wb :: ps, cs, prev =>
    if atBoundary prev cs.head? then tryMatch ps cs prev else none
  | .once e :: ps, cs, _ =>
    match cs with
    | [] => none
    | c :: cs' =>
      if matchElem e c then (tryMatch ps cs' (some c)).map (· + 1) else none
  | .star e :: ps, cs, prev =>
    firstSomeDesc
      (fun i =>
        (tryMatch ps (cs.drop i)
            (if i = 0 then prev else (cs.drop (i - 1)).head?)).map (· + i))
      (runLen e cs)

/-- All non-overlapping matches, leftmost first, as position-length
spans: the Python findall scan.  After an empty match the scan advances
one character.  The fuel argument starts above the subject length and
each step consumes at least one character, so it never runs out. -/
def findSpansAux (re : Regex) : Nat → List Char → Option Char → Nat → List (Nat × Nat)
  | 0, _, _, _ => []
  | fuel + 1, cs, prev, pos =>
    match tryMatch re cs prev with
    | none =>
      match cs with
      | [] => []
      | c :: cs' => findSpansAux re fuel cs' (some c) (pos + 1)
    | some 0 =>
      match cs with
      | [] => [(pos, 0)]
      | c :: cs' => (pos, 0) :: findSpansAux re fuel cs' (some c) (pos + 1)
    | some (l + 1) =>
      (pos, l + 1) ::
        findSpansAux re fuel (cs.drop (l + 1)) ((cs.drop l).head?) (pos + l + 1)

/-- The Python findall call on a subject, as spans. -/
def reFindSpans (re : Regex) (s : List Char) : List (Nat × Nat) :=
  findSpansAux re (s.length + 1) s none 0

/-- The Python search call: a match exists somewhere.  search succeeds
exactly when findall is non-empty. -/
def reSearch (re : Regex) (s : List Char) : Bool :=
  !(reFindSpans re s).isEmpty

/-- Extract the text of a span from a subject. -/
def spanStr (s : List Char) (sp : Nat × Nat) : List Char :=
  (s.drop sp.1).take sp.2

/-- A sequence of literal characters. -/
def lits (s : String) : Regex := s.data.map (fun c => .once (.lit c))

/-- One or more whitespace characters. -/
def wsPlus : Regex := [.once .ws, .star .ws]

/-- Zero or more whitespace characters. -/
def wsStar : Regex := [.star .ws]

/-- Zero or more arbitrary characters, the greedy dot star. -/
def dotStar : Regex := [.star .any]

/-! ## The pattern catalogue of command_analyzer.py

The dangerous-pattern table, the best-practice table and the typo table,
in source order.  The two regex tables are matched with IGNORECASE, so
their literals are written lower cased and they are applied to the lower
cased subject; the matched text of an issue is extracted from the
original subject at the matched span. -/

structure DPat where
  pat : Regex
  risk : String
  message : String

def dangerous_patterns : List DPat := [
  ⟨lits "rm" ++ wsPlus ++ lits "-rf" ++ wsPlus ++ lits "/", "DANGER",
    "Using rm -rf on root directory can delete entire system"⟩,
  ⟨lits "rm" ++ wsPlus ++ lits "-rf" ++ wsPlus ++ lits "*", "DANGER",
    "Using rm -rf * can delete all files in current directory"⟩,
  ⟨lits "rm" ++ wsPlus ++ lits "-rf" ++ wsPlus ++ lits "/home", "HIGH",
    "Deleting /home directory affects all user data"⟩,
  ⟨lits "chmod" ++ wsPlus ++ lits "777" ++ wsPlus, "MEDIUM",
    "Setting permissions to 777 gives full access to everyone"⟩,
  ⟨lits "sudo" ++ wsPlus ++ dotStar ++ lits "rm" ++ wsPlus ++ lits "-rf", "CRITICAL",
    "Combining sudo with rm -rf is extremely dangerous"⟩,
  ⟨lits ">" ++ wsStar ++ lits "/dev/sd" ++ [.once (.cls false [('a', 'z')])], "CRITICAL",
    "Writing to disk device can destroy partition"⟩,
  ⟨lits "dd" ++ wsPlus ++ lits "if=" ++ dotStar ++ lits "of=/dev/sd" ++
      [.once (.cls false [('a', 'z')])], "CRITICAL",
    "dd command can overwrite entire disks"⟩,
  ⟨lits "curl" ++ wsPlus ++ dotStar ++ lits "|" ++ wsStar ++ lits "bash", "HIGH",
    "Piping curl output to bash can execute malicious code"⟩,
  ⟨lits "wget" ++ wsPlus ++ dotStar ++ lits "|" ++ wsStar ++ lits "bash", "HIGH",
    "Piping wget output to bash can execute malicious code"⟩,
  ⟨lits "ssh" ++ wsPlus ++ dotStar ++ lits "-o" ++ wsPlus ++
      lits "stricthostkeychecking=no", "MEDIUM",
    "Disabling host key checking is insecure"⟩,
  ⟨lits "mysql" ++ wsPlus ++ dotStar ++ lits "-p" ++ wsStar ++
      [.once (.cls true [('-', '-')])], "MEDIUM",
    "Password in command line is visible in process list"⟩,
  ⟨lits "psql" ++ wsPlus ++ dotStar ++ lits "-w", "MEDIUM",
    "Password prompt might be insecure"⟩,
  ⟨lits "find" ++ wsPlus ++ dotStar ++ lits "-exec" ++ wsPlus ++ lits "rm", "MEDIUM",
    "find with -exec rm can be dangerous if not careful"⟩,
  ⟨lits "chown" ++ wsPlus ++ dotStar ++ lits ":" ++ wsStar, "LOW",
    "Changing ownership - verify target is correct"⟩,
  ⟨lits "mount" ++ wsPlus ++ dotStar ++ lits "remount", "MEDIUM",
    "Remounting can affect system stability"⟩]

def best_practices : List (Regex × String) := [
  (lits "cp" ++ wsPlus ++ dotStar ++ wsPlus ++ dotStar,
    "Consider using rsync for large file operations"),
  (lits "tar" ++ wsPlus ++ dotStar,
    "Consider using pigz for faster compression"),
  (lits "grep" ++ wsPlus ++ dotStar,
    "Consider using ripgrep (rg) for faster searching"),
  (lits "find" ++ wsPlus ++ dotStar,
    "Consider using fd for faster file finding"),
  (lits "ls" ++ wsPlus ++ lits "-la",
    "Consider using exa or lsd for better output"),
  (lits "cat" ++ wsPlus ++ dotStar ++ lits "|" ++ wsStar ++ lits "grep",
    "Consider using grep directly on files"),
  (lits "ps" ++ wsPlus ++ lits "aux",
    "Consider using htop or btop for better process monitoring")]

def common_typos : List (String × String) := [
  ("gerp", "grep"),
  ("cd..", "cd .."),
  ("cd/", "cd /"),
  ("ls-la", "ls -la"),
  ("ps-aux", "ps aux"),
  ("top|", "top |")]

/-! ## The command risk engine of command_analyzer.py -/

/-- One issue of a command analysis, the dict built by analyze_command. -/
structure CmdIssue where
  type : String
  risk : String
  message : String
  command_part : String
deriving DecidableEq

/-- The dict returned by analyze_command. -/
structure CmdResult where
  command : String
  issues : List CmdIssue
  suggestions : List String
  risk_level : String
  total_issues : Nat
  total_suggestions : Nat
  is_code : Bool
  corrected_code : String
deriving DecidableEq

/-- Outcome of the external Python ast parser on a source string: the
three cases the source distinguishes (success, a SyntaxError, any other
exception). -/
inductive ParseOutcome where
  | ok
  | syntaxError (msg : String)
  | otherError (msg : String)
deriving DecidableEq

/-- A Python runtime error escaping the engine; the only candidate in
analyze_command is the index access on a findall result. -/
inductive PyRunErr where
  | indexError
deriving DecidableEq

/-- The indicator table of _looks_like_python. -/
def python_indicators : List String :=
  ["print(", "print ", "def ", "class ", "import ", "from ", "if ", "for ",
   "while ", "try:", "except:", "with ", ".py", "len(", "str(", "int(",
   "list(", "dict("]

/-- Does the command look like Python code: the stripped command
contains at least one indicator. -/
def _looks_like_python (command : String) : Bool :=
  let stripped := pyStrip command.data
  python_indicators.any (fun ind => substrB ind.data stripped)

/-- The pattern of the Python-2 print statement check (no flag, matched
against the original subject). -/
def printStmtRe : Regex := [.wb] ++ lits "print" ++ wsPlus ++ [.once .wd, .star .wd]

/-- The pattern of the unquoted print argument search. -/
def printCallNoQuoteRe : Regex :=
  lits "print(" ++
    [.star (.cls true [('"', '"'), ('\'', '\'')]), .once .wd, .star .wd,
     .star (.cls true [('"', '"'), ('\'', '\'')])] ++ lits ")"

/-- The pattern of the print argument extraction findall. -/
def printCallRe : Regex :=
  lits "print(" ++ [.once (.cls true [(')', ')')]), .star (.cls true [(')', ')')])] ++
    lits ")"

/-- The issue appended when an IndexError from an empty findall result
is caught by the broad except clause. -/
def idxErrIssue (command : String) : CmdIssue :=
  ⟨"ERROR", "MEDIUM", "Python parsing error: list index out of range", command⟩

/-- Second style check of _analyze_python_syntax_check on parseable input: a
print call whose argument carries no quote.  The guarded findall uses a
different pattern than the search, and its index access can raise; the
broad except converts that to an ERROR issue. -/
def checkPrintQuote (command : String) (cs : List Char) : List CmdIssue :=
  if reSearch printCallNoQuoteRe cs then
    match reFindSpans printCallRe cs with
    | [] => [idxErrIssue command]
    | sp :: _ =>
      let pm := spanStr cs sp
      if !(pm.contains '"' || pm.contains '\'') then
        [⟨"SYNTAX", "MEDIUM",
          "String literals in print statements should be enclosed in quotes",
          strOfL pm⟩]
      else []
  else []

/-- The syntax and style checker of command_analyzer.py, the private
helper that analyzes embedded Python source (renamed here with a _check
suffix).  A parse
failure becomes exactly one MEDIUM issue; on success the two print
checks run, and any exception inside the try block is converted to an
ERROR issue, aborting the remaining checks of the block. -/
def _analyze_python_syntax_check (parse : String → ParseOutcome) (command : String) :
    List CmdIssue :=
  match parse command with
  | .syntaxError m => [⟨"SYNTAX", "MEDIUM", "Syntax error: " ++ m, command⟩]
  | .otherError m => [⟨"ERROR", "MEDIUM", "Python parsing error: " ++ m, command⟩]
  | .ok =>
    let cs := command.data
    if reSearch printStmtRe cs then
      match reFindSpans printStmtRe cs with
      | [] => [idxErrIssue command]
      | sp :: _ =>
        ⟨"SYNTAX", "MEDIUM",
            "Python 3 requires parentheses for print statements: print(\"hello\")",
            strOfL (spanStr cs sp)⟩ ::
          checkPrintQuote command cs
    else checkPrintQuote command cs

/-- The python issues merged into a command analysis: the checker runs
only when the command looks like Python. -/
def pyIssuesOf (parse : String → ParseOutcome) (command : String) : List CmdIssue :=
  if _looks_like_python command then _analyze_python_syntax_check parse command else []

/-- The risk escalation step of the dangerous-pattern loop, the if-elif
chain over the matched risk label. -/
def escalate (risk_level risk : String) : String :=
  if risk = "CRITICAL" then "CRITICAL"
  else if risk = "HIGH" ∧ risk_level ≠ "CRITICAL" then "HIGH"
  else if risk = "MEDIUM" ∧ ¬(risk_level = "CRITICAL" ∨ risk_level = "HIGH") then
    "MEDIUM"
  else risk_level

/-- The dangerous-pattern loop: for each matching entry, append a
SECURITY issue whose command_part is the first findall result, and
escalate the risk level.  The index access on the findall result is the
one statement of analyze_command that can raise. -/
def dangerFold (orig lowered : List Char) :
    List DPat → List CmdIssue × String → Except PyRunErr (List CmdIssue × String)
  | [], acc => .ok acc
  | e :: rest, (iss, rl) =>
    if reSearch e.pat lowered then
      match reFindSpans e.pat lowered with
      | [] => .error .indexError
      | sp :: _ =>
        dangerFold orig lowered rest
          (iss ++ [⟨"SECURITY", e.risk, e.message, strOfL (spanStr orig sp)⟩],
           escalate rl e.risk)
    else dangerFold orig lowered rest (iss, rl)

/-- The best-practice loop: collect the suggestion of every matching
entry, in table order. -/
def bpFold (lowered : List Char) : List (Regex × String) → List String
  | [] => []
  | p :: rest =>
    if reSearch p.1 lowered then p.2 :: bpFold lowered rest
    else bpFold lowered rest

/-- The typo loop: a literal, case-sensitive substring test on the
original command. -/
def typoIssues (orig : List Char) : List CmdIssue :=
  common_typos.filterMap (fun tc =>
    if substrB tc.1.data orig then
      some ⟨"TYPO", "LOW", "Possible typo: " ++ tc.1 ++ " should be " ++ tc.2, tc.1⟩
    else none)

/-- The suggestion list of a command analysis: best practices, then the
sudo heuristic, the pipe heuristic and the length heuristic, in source
order. -/
def suggestionsOf (command : String) : List String :=
  let lowered := lowerOf command
  let s1 := bpFold lowered best_practices
  let s2 :=
    if substrB "sudo".data lowered &&
        !((["apt", "yum", "dnf", "pacman", "systemctl"] : List String).any
          (fun w => substrB w.data lowered)) then
      s1 ++ ["Verify if sudo is necessary for this command"]
    else s1
  let s3 :=
    if command.data.contains '|' then
      s2 ++ ["Consider breaking complex piped commands into separate steps for clarity"]
    else s2
  if (pyWords command.data).length > 10 then
    s3 ++ ["Command is quite long - consider using a script for complex operations"]
  else s3

/-- The docstring lookahead of _generate_corrected_code: scan the lines
after a def or class header.  The scanned line is stripped before the
indentation test, so any non-empty line breaks the scan before the
docstring test can run. -/
def scanDoc : List (List Char) → Bool
  | [] => false
  | l :: rest =>
    let nl := pyStrip l
    if !nl.isEmpty && !isPrefB [' '] nl && !isPrefB ['\t'] nl then false
    else if isPrefB ['"', '"', '"'] nl || isPrefB ['\'', '\'', '\''] nl then true
    else scanDoc rest

/-- The line rewriting loop of _generate_corrected_code: after every def
or class header line without a detected docstring, insert the 3-line
placeholder block at the indentation of the header plus one level. -/
def genCorrectedLines : List (List Char) → List (List Char)
  | [] => []
  | line :: rest =>
    let stripped := pyStrip line
    let isDef := isPrefB "def ".data stripped
    let isHeader := isDef || isPrefB "class ".data stripped
    if isHeader && !scanDoc rest then
      let indent := line.length - (line.dropWhile isWsChar).length
      let pad := List.replicate indent ' '
      line ::
        (pad ++ "    \"\"\"".data) ::
        (pad ++ (if isDef then "    Function description.".data
                 else "    Class description.".data)) ::
        (pad ++ "    \"\"\"".data) ::
        genCorrectedLines rest
    else line :: genCorrectedLines rest

/-- The best-effort corrector _generate_corrected_code. -/
def _generate_corrected_code (command : String) : String :=
  strOfL (joinNl (genCorrectedLines (splitOnNl command.data)))

/-- The command risk engine analyze_command, parameterised by the
outcome of the external Python ast parser.  Issues accumulate in source
order: embedded-Python issues, then dangerous-pattern issues, then typo
issues.  The risk level starts LOW, is floored at MEDIUM when the
embedded-Python path produced issues, and is escalated by the
dangerous-pattern loop. -/
def analyze_command (parse : String → ParseOutcome) (command : String) :
    Except PyRunErr CmdResult :=
  let python_issues := pyIssuesOf parse command
  let risk_level := if python_issues.isEmpty then "LOW" else "MEDIUM"
  match dangerFold command.data (lowerOf command) dangerous_patterns
      (python_issues, risk_level) with
  | .error e => .error e
  | .ok (issues1, rl1) =>
    let issues2 := issues1 ++ typoIssues command.data
    let suggestions := suggestionsOf command
    let is_code := _looks_like_python command
    .ok ⟨command, issues2, suggestions, rl1, issues2.length, suggestions.length,
         is_code, if is_code then _generate_corrected_code command else ""⟩

/-- Total extraction of a successful command analysis, for concrete
witnesses. -/
def extractOk : Except PyRunErr CmdResult → CmdResult
  | .ok r => r
  | .error _ => ⟨"", [], [], "", 0, 0, false, ""⟩

/-- A parser stub that always succeeds, for concrete inputs whose parse
outcome is irrelevant or successful. -/
def parseOk0 : String → ParseOutcome := fun _ => .ok

/-! ## The quality scoring engine of analyzer.py -/

/-- One issue of a code analysis, the dict built by analyze_code. -/
structure CodeIssue where
  type : String
  message : String
  line : Int
deriving DecidableEq

/-- The dict returned by analyze_code. -/
structure CodeResult where
  filename : String
  issues : List CodeIssue
  score : Int
  suggestions : List String
  code_lines : List String
  line_suggestions : List (Int × String)
deriving DecidableEq

/-- One function record of the external complexity library. -/
structure FuncCx where
  name : String
  complexity : Int
  lineno : Int
deriving DecidableEq

/-- The raw metrics record of the external complexity library. -/
structure RawMetrics where
  loc : Int
deriving DecidableEq

/-- Nodes of the walked syntax tree that the naming check inspects. -/
inductive PyNode where
  | functionDef (name : String) (lineno : Int)
  | classDef (name : String) (lineno : Int)
  | other
deriving DecidableEq

/-- Outcome of the external Python ast parser inside analyze_code: the
walked nodes on success, a SyntaxError with message and line, or any
other exception (which the naming check does not catch). -/
inductive ParseResult where
  | ok (nodes : List PyNode)
  | syntaxError (msg : String) (lineno : Int)
  | otherError (msg : String)
deriving DecidableEq

/-- The external collaborators of analyze_code: the pylint subprocess
combined with its JSON decoding, the file read, the two complexity
library calls, the ast parser with its walk, and the display-time file
read.  An error value is the message of the exception the collaborator
raised. -/
structure CodeEnv where
  pylint : Except String (List CodeIssue)
  readFile : Except String String
  ccVisit : String → Except String (List FuncCx)
  rawMetrics : String → Except String RawMetrics
  parse : String → ParseResult
  readFileDisplay : Except String String

/-- A Python exception escaping analyze_code: the NameError on the
unbound code variable, or an uncaught parser exception. -/
inductive PyExn where
  | nameError
  | uncaught (msg : String)
deriving DecidableEq

/-- The per-issue deduction of the pylint loop. -/
def pylintDeduction (t : String) : Int :=
  if t = "error" then 10 else if t = "warning" then 5 else 2

/-- The pylint check: on success every reported finding becomes an issue
with its deduction; on failure one error issue and no deduction. -/
def check1 (env : CodeEnv) : List CodeIssue × Int :=
  match env.pylint with
  | .ok lst => (lst, (lst.map (fun i => pylintDeduction i.type)).sum)
  | .error e => ([⟨"error", "Pylint failed: " ++ e, 0⟩], 0)

/-- The complexity and size check.  The fourth component is the code
variable: it is bound exactly when the file read succeeded, even if a
later statement of the try block raised. -/
def check2 (env : CodeEnv) :
    List CodeIssue × Int × List String × Option String :=
  match env.readFile with
  | .error e => ([⟨"error", "Complexity analysis failed: " ++ e, 0⟩], 0, [], none)
  | .ok code =>
    match env.ccVisit code with
    | .error e =>
      ([⟨"error", "Complexity analysis failed: " ++ e, 0⟩], 0, [], some code)
    | .ok funcs =>
      let hi := funcs.filter (fun f => f.complexity > 10)
      let cxIssues := hi.map (fun f =>
        (⟨"warning", "High complexity in " ++ f.name ++ ": " ++ toString f.complexity,
          f.lineno⟩ : CodeIssue))
      let cxSugs := hi.map (fun f => "Refactor " ++ f.name ++ " to reduce complexity")
      let cxDed : Int := 5 * hi.length
      match env.rawMetrics code with
      | .error e =>
        (cxIssues ++ [⟨"error", "Complexity analysis failed: " ++ e, 0⟩],
         cxDed, cxSugs, some code)
      | .ok rm =>
        if rm.loc > 100 then
          (cxIssues ++
             [⟨"info", "File is quite long: " ++ toString rm.loc ++ " lines", 0⟩],
           cxDed + 5,
           cxSugs ++ ["Consider breaking down the file into smaller modules"],
           some code)
        else (cxIssues, cxDed, cxSugs, some code)

/-- The walk of the naming check: a function name is flagged when it is
not lower case or carries no underscore; a class name is flagged when it
is not title case. -/
def namingIssues : List PyNode → List CodeIssue × Int × List String
  | [] => ([], 0, [])
  | n :: rest =>
    let r := namingIssues rest
    match n with
    | .functionDef name ln =>
      if !pyIslower name || !(name.data.contains '_') then
        (⟨"warning", "Function name " ++ name ++ " does not follow snake_case convention",
            ln⟩ :: r.1,
         r.2.1 + 2,
         ("Rename " ++ name ++ " to follow snake_case") :: r.2.2)
      else r
    | .classDef name ln =>
      if !pyIstitle name then
        (⟨"warning", "Class name " ++ name ++ " does not follow PascalCase convention",
            ln⟩ :: r.1,
         r.2.1 + 2,
         ("Rename " ++ name ++ " to follow PascalCase") :: r.2.2)
      else r
    | .other => r

/-- The naming-convention check.  It parses the code variable of the
complexity check: when that variable is unbound the access raises a
NameError, and only a SyntaxError of the parser is caught. -/
def check3 (env : CodeEnv) (codeOpt : Option String) :
    Except PyExn (List CodeIssue × Int × List String) :=
  match codeOpt with
  | none => .error .nameError
  | some code =>
    match env.parse code with
    | .ok nodes => .ok (namingIssues nodes)
    | .syntaxError m ln => .ok ([⟨"error", "Syntax error: " ++ m, ln⟩], 20, [])
    | .otherError m => .error (.uncaught m)

/-- The quality scoring engine analyze_code: the three checks in source
order, the clamped score, and the best-effort display capture. -/
def analyze_code (filepath : String) (env : CodeEnv) : Except PyExn CodeResult :=
  match check3 env (check2 env).2.2.2 with
  | .error e => .error e
  | .ok c3 =>
    .ok ⟨basenameOf filepath,
         (check1 env).1 ++ (check2 env).1 ++ c3.1,
         max 0 (100 - (check1 env).2 - (check2 env).2.1 - c3.2.1),
         (check2 env).2.2.1 ++ c3.2.2,
         (match env.readFileDisplay with
          | .ok s => pySplitlines s
          | .error _ => []),
         []⟩

/-- Total extraction of a successful code analysis, for concrete
witnesses. -/
def extractOkC : Except PyExn CodeResult → CodeResult
  | .ok r => r
  | .error _ => ⟨"", [], 0, [], [], []⟩

/-! ## The risk order and the shape of the dangerous-pattern loop -/

/-- Numeric rank of an overall risk level, under the order LOW < MEDIUM
< HIGH < CRITICAL. -/
def strRank (s : String) : Nat :=
  if s = "CRITICAL" then 3 else if s = "HIGH" then 2
  else if s = "MEDIUM" then 1 else 0

/-- The overall risk level of a given rank. -/
def rankToStr : Nat → String
  | 0 => "LOW"
  | 1 => "MEDIUM"
  | 2 => "HIGH"
  | _ + 3 => "CRITICAL"

/-- The rank of a table risk label inside the four-tier order; a label
outside the order (the DANGER label of the first two table entries) has
no rank. -/
def tierRank? (s : String) : Option Nat :=
  if s = "LOW" then some 0 else if s = "MEDIUM" then some 1
  else if s = "HIGH" then some 2 else if s = "CRITICAL" then some 3 else none

/-- Rank of a table label with the unranked labels contributing nothing
to a maximum. -/
def tierRankD (s : String) : Nat := (tierRank? s).getD 0

/-- Maximum rank of a list of table labels. -/
def ranksMax : List String → Nat
  | [] => 0
  | t :: ts => max (tierRankD t) (ranksMax ts)

/-- The risk labels of the matching table entries, in table order. -/
def dRisksL (lowered : List Char) : List DPat → List String
  | [] => []
  | e :: rest =>
    if reSearch e.pat lowered = true then e.risk :: dRisksL lowered rest
    else dRisksL lowered rest

/-- The SECURITY issues of the matching table entries, in table order. -/
def dIssuesL (orig lowered : List Char) : List DPat → List CmdIssue
  | [] => []
  | e :: rest =>
    if reSearch e.pat lowered = true then
      (match reFindSpans e.pat lowered with
        | [] => []
        | sp :: _ => [⟨"SECURITY", e.risk, e.message, strOfL (spanStr orig sp)⟩]) ++
        dIssuesL orig lowered rest
    else dIssuesL orig lowered rest

/-! ## A closed form of analyze_command -/

/-- The dangerous-pattern entries matching a command (against its lower
cased text, the IGNORECASE search). -/
def matchedEntries (cmd : String) : List DPat :=
  dangerous_patterns.filter (fun e => reSearch e.pat (lowerOf cmd))

/-- The MEDIUM floor of the embedded-Python path, as a rank. -/
def floorRank (parse : String → ParseOutcome) (cmd : String) : Nat :=
  if (pyIssuesOf parse cmd).isEmpty then 0 else 1

/-- Maximum four-tier rank among the risk labels of a list of entries. -/
def maxTier (l : List DPat) : Nat := ranksMax (l.map (fun e => e.risk))

/-- The record analyze_command returns, assembled from the named
pieces. -/
def resultOf (parse : String → ParseOutcome) (cmd : String) : CmdResult :=
  let issues2 :=
    pyIssuesOf parse cmd ++
      dIssuesL cmd.data (lowerOf cmd) dangerous_patterns ++
      typoIssues cmd.data
  let sugg := suggestionsOf cmd
  ⟨cmd, issues2, sugg,
   List.foldl escalate (rankToStr (floorRank parse cmd))
     (dRisksL (lowerOf cmd) dangerous_patterns),
   issues2.length, sugg.length, _looks_like_python cmd,
   if _looks_like_python cmd then _generate_corrected_code cmd else ""⟩


/-! ## Concrete parser stubs and environments for witnesses -/

/-- A parser stub that always reports a syntax error, for concrete
witnesses of the failure paths. -/
def parseSynBad : String → ParseOutcome := fun _ => .syntaxError "invalid syntax"

/-- An environment whose analyzed file cannot be read: the pylint check
succeeds with no findings, the file read raises, and the parser is never
reached. -/
def envMissing : CodeEnv :=
  ⟨.ok [], .error "No such file or directory", fun _ => .ok [],
   fun _ => .ok ⟨0⟩, fun _ => .ok [], .error "No such file or directory"⟩

/-- An environment for a clean two-line file containing only a function
named main: no lint findings, complexity 1, two lines of code. -/
def envMain : CodeEnv :=
  ⟨.ok [], .ok "def main():\n    pass\n", fun _ => .ok [⟨"main", 1, 1⟩],
   fun _ => .ok ⟨2⟩, fun _ => .ok [.functionDef "main" 1],
   .ok "def main():\n    pass\n"⟩

/-- An environment in which all three checks find nothing. -/
def envClean : CodeEnv :=
  ⟨.ok [], .ok "x = 1\n", fun _ => .ok [], fun _ => .ok ⟨1⟩,
   fun _ => .ok [.other], .ok "x = 1\n"⟩

/-- The result record of the clean analysis. -/
def rClean : CodeResult := extractOkC (analyze_code "clean.py" envClean)

/-! ## Lemmas -/

lemma strRank_le3 (s : String) : strRank s ≤ 3 := by
  unfold strRank; split_ifs <;> omega

lemma strRank_le2 {rl : String} (h : rl ≠ "CRITICAL") : strRank rl ≤ 2 := by
  unfold strRank
  split_ifs with a
  · exact absurd a h
  all_goals omega

lemma strRank_le1 {rl : String} (h : ¬(rl = "CRITICAL" ∨ rl = "HIGH")) :
    strRank rl ≤ 1 := by
  unfold strRank
  split_ifs with a b
  · exact absurd (Or.inl a) h
  · exact absurd (Or.inr b) h
  all_goals omega

lemma tierRankD_le (t : String) : tierRankD t ≤ 3 := by
  unfold tierRankD tierRank?
  split_ifs <;> simp

lemma ranksMax_le (ts : List String) : ranksMax ts ≤ 3 := by
  induction ts with
  | nil => simp [ranksMax]
  | cons t ts ih => exact max_le (tierRankD_le t) ih

lemma mem_ranksMax {t : String} {ts : List String} (h : t ∈ ts) :
    tierRankD t ≤ ranksMax ts := by
  induction ts with
  | nil => cases h
  | cons a as ih =>
    rcases List.mem_cons.mp h with rfl | h2
    · exact Nat.le_max_left _ _
    · exact le_trans (ih h2) (Nat.le_max_right _ _)

lemma strRank_rankToStr {k : Nat} (hk : k ≤ 3) : strRank (rankToStr k) = k := by
  interval_cases k <;> decide

/-- The escalation step realises the maximum in the four-tier order:
starting from a ranked level, the new level is the maximum of the old
rank and the rank of the matched label, with unranked labels (LOW has
rank zero, DANGER has no rank) never escalating. -/
lemma escalate_rank {k : Nat} (hk : k ≤ 3) (t : String) :
    escalate (rankToStr k) t = rankToStr (max k (tierRankD t)) := by
  by_cases h1 : t = "CRITICAL"
  · subst h1; interval_cases k <;> decide
  · by_cases h2 : t = "HIGH"
    · subst h2; interval_cases k <;> decide
    · by_cases h3 : t = "MEDIUM"
      · subst h3; interval_cases k <;> decide
      · have ht : tierRankD t = 0 := by
          by_cases h4 : t = "LOW"
          · subst h4; decide
          · simp [tierRankD, tierRank?, h1, h2, h3, h4]
        have he : escalate (rankToStr k) t = rankToStr k := by
          simp [escalate, h1, h2, h3]
        rw [ht, he, Nat.max_zero]

lemma foldl_escalate (ts : List String) : ∀ k, k ≤ 3 →
    List.foldl escalate (rankToStr k) ts = rankToStr (max k (ranksMax ts)) := by
  induction ts with
  | nil => intro k _; simp [ranksMax]
  | cons t ts ih =>
    intro k hk
    rw [List.foldl_cons, escalate_rank hk t,
      ih _ (max_le hk (tierRankD_le t))]
    have : ranksMax (t :: ts) = max (tierRankD t) (ranksMax ts) := rfl
    rw [this, Nat.max_assoc]

/-- One escalation step never lowers the risk level. -/
lemma escalate_mono (rl t : String) : strRank rl ≤ strRank (escalate rl t) := by
  unfold escalate
  split_ifs with h1 h2 h3
  · have e : strRank "CRITICAL" = 3 := by decide
    rw [e]; exact strRank_le3 rl
  · have e : strRank "HIGH" = 2 := by decide
    rw [e]; exact strRank_le2 h2.2
  · have e : strRank "MEDIUM" = 1 := by decide
    rw [e]; exact strRank_le1 h3.2
  · exact le_refl _

lemma foldl_escalate_mono (ts : List String) :
    ∀ rl, strRank rl ≤ strRank (List.foldl escalate rl ts) := by
  induction ts with
  | nil => intro rl; simp
  | cons t ts ih => intro rl; exact le_trans (escalate_mono rl t) (ih (escalate rl t))

/-- The dangerous-pattern loop never raises (a search hit guarantees a
non-empty findall result for the same pattern) and computes exactly the
issues of the matching entries plus the escalation fold over their
labels. -/
lemma dangerFold_eq (orig lowered : List Char) :
    ∀ (l : List DPat) (iss : List CmdIssue) (rl : String),
      dangerFold orig lowered l (iss, rl) =
        .ok (iss ++ dIssuesL orig lowered l,
             List.foldl escalate rl (dRisksL lowered l)) := by
  intro l
  induction l with
  | nil => intro iss rl; simp [dangerFold, dIssuesL, dRisksL]
  | cons e rest ih =>
    intro iss rl
    by_cases h : reSearch e.pat lowered = true
    · have hne : reFindSpans e.pat lowered ≠ [] := by
        intro hnil
        rw [reSearch, hnil] at h
        simp at h
      cases hsp : reFindSpans e.pat lowered with
      | nil => exact absurd hsp hne
      | cons sp tl =>
        simp only [dangerFold, h, if_true, hsp]
        rw [ih]
        simp [dIssuesL, dRisksL, h, hsp, List.append_assoc]
    · simp only [dangerFold, h, if_false]
      rw [ih]
      simp [dIssuesL, dRisksL, h]

lemma dRisksL_eq_filter (lowered : List Char) :
    ∀ l : List DPat,
      dRisksL lowered l =
        (l.filter (fun e => reSearch e.pat lowered)).map (fun e => e.risk) := by
  intro l
  induction l with
  | nil => rfl
  | cons e rest ih =>
    by_cases h : reSearch e.pat lowered = true
    · simp [dRisksL, List.filter, h, ih]
    · simp [dRisksL, List.filter, h, ih]

/-- analyze_command never raises and returns its closed form. -/
lemma analyze_command_eq (parse : String → ParseOutcome) (cmd : String) :
    analyze_command parse cmd = .ok (resultOf parse cmd) := by
  unfold analyze_command resultOf
  simp only [dangerFold_eq]
  by_cases h : (pyIssuesOf parse cmd).isEmpty
  · simp [h, floorRank, rankToStr, List.append_assoc]
  · simp [h, floorRank, rankToStr, List.append_assoc]

/-- The overall risk level of the closed form is the maximum of the
MEDIUM floor and the four-tier ranks of the matched table labels. -/
lemma resultOf_risk (parse : String → ParseOutcome) (cmd : String) :
    (resultOf parse cmd).risk_level =
      rankToStr (max (floorRank parse cmd) (maxTier (matchedEntries cmd))) := by
  have h1 : (resultOf parse cmd).risk_level =
      List.foldl escalate (rankToStr (floorRank parse cmd))
        (dRisksL (lowerOf cmd) dangerous_patterns) := rfl
  have hfl : floorRank parse cmd ≤ 3 := by
    unfold floorRank; split_ifs <;> omega
  have h2 : ranksMax (dRisksL (lowerOf cmd) dangerous_patterns) =
      maxTier (matchedEntries cmd) := by
    rw [dRisksL_eq_filter]; rfl
  rw [h1, foldl_escalate _ _ hfl, h2]

lemma rankToStr_mem (n : Nat) :
    rankToStr n ∈ (["LOW", "MEDIUM", "HIGH", "CRITICAL"] : List String) := by
  obtain _ | _ | _ | k := n <;> simp [rankToStr]

lemma dropWhile_head_not (p : Char → Bool) :
    ∀ (l : List Char) (c : Char) (t : List Char),
      List.dropWhile p l = c :: t → p c = false := by
  intro l
  induction l with
  | nil => intro c t h; exact absurd h (by simp)
  | cons a as ih =>
    intro c t h
    rw [List.dropWhile_cons] at h
    by_cases hp : p a = true
    · rw [if_pos hp] at h; exact ih c t h
    · rw [if_neg hp] at h
      injection h with h1 _
      rw [← h1]
      cases hpa : p a with
      | false => rfl
      | true => exact absurd hpa hp

/-- The head of a stripped line is never whitespace. -/
lemma pyStrip_head_not_ws {l : List Char} {c : Char} {t : List Char}
    (h : pyStrip l = c :: t) : isWsChar c = false := by
  have hpre : pyStrip l <+: l.dropWhile isWsChar := by
    unfold pyStrip
    have hsuf : (l.dropWhile isWsChar).reverse.dropWhile isWsChar <:+
        (l.dropWhile isWsChar).reverse := List.dropWhile_suffix _
    have h2 := List.reverse_prefix.mpr hsuf
    rwa [List.reverse_reverse] at h2
  rw [h] at hpre
  obtain ⟨t2, ht2⟩ := hpre
  exact dropWhile_head_not isWsChar l c (t ++ t2) (by rw [← ht2]; simp)

lemma not_ws_head_pref (c : Char) (t : List Char) (hc : isWsChar c = false) :
    isPrefB [' '] (c :: t) = false ∧ isPrefB ['\t'] (c :: t) = false := by
  have h1 : (' ' == c) = false := by
    cases heq : (' ' == c) with
    | false => rfl
    | true =>
      rw [show c = ' ' from (beq_iff_eq.mp heq).symm] at hc
      exact absurd hc (by decide)
  have h2 : ('\t' == c) = false := by
    cases heq : ('\t' == c) with
    | false => rfl
    | true =>
      rw [show c = '\t' from (beq_iff_eq.mp heq).symm] at hc
      exact absurd hc (by decide)
  constructor <;> simp [isPrefB, h1, h2]

/-- The pylint check: no issues means no deduction, and the deduction is
never negative. -/
lemma check1_shape (env : CodeEnv) :
    ((check1 env).1 = [] → (check1 env).2 = 0) ∧ 0 ≤ (check1 env).2 := by
  unfold check1
  cases env.pylint with
  | ok lst =>
    constructor
    · intro h
      dsimp only at h
      subst h
      rfl
    · dsimp only
      apply List.sum_nonneg
      intro x hx
      obtain ⟨i, -, rfl⟩ := List.mem_map.mp hx
      unfold pylintDeduction
      split_ifs <;> omega
  | error e =>
    constructor
    · intro h; simp at h
    · dsimp only; omega

/-- The complexity check: no issues means no deduction, and the
deduction is never negative. -/
lemma check2_shape (env : CodeEnv) :
    ((check2 env).1 = [] → (check2 env).2.1 = 0) ∧ 0 ≤ (check2 env).2.1 := by
  unfold check2
  cases env.readFile with
  | error e => constructor <;> simp
  | ok code =>
    dsimp only
    cases env.ccVisit code with
    | error e => constructor <;> simp
    | ok funcs =>
      dsimp only
      cases env.rawMetrics code with
      | error e =>
        constructor
        · intro h; simp at h
        · dsimp only
          have := Int.natCast_nonneg (funcs.filter (fun f => f.complexity > 10)).length
          omega
      | ok rm =>
        dsimp only
        by_cases hloc : rm.loc > 100
        · rw [if_pos hloc]
          constructor
          · intro h; simp at h
          · dsimp only
            have := Int.natCast_nonneg (funcs.filter (fun f => f.complexity > 10)).length
            omega
        · rw [if_neg hloc]
          constructor
          · intro h
            dsimp only at h ⊢
            rw [List.map_eq_nil_iff] at h
            rw [h]
            simp
          · dsimp only
            have := Int.natCast_nonneg (funcs.filter (fun f => f.complexity > 10)).length
            omega

/-- The naming walk: no issues means no deduction, and the deduction is
never negative. -/
lemma namingIssues_shape : ∀ nodes : List PyNode,
    ((namingIssues nodes).1 = [] → (namingIssues nodes).2.1 = 0) ∧
    0 ≤ (namingIssues nodes).2.1 := by
  intro nodes
  induction nodes with
  | nil => exact ⟨fun _ => rfl, le_refl 0⟩
  | cons n rest ih =>
    cases n with
    | functionDef name ln =>
      by_cases hc : (!pyIslower name || !(name.data.contains '_')) = true
      · constructor
        · intro h
          simp only [namingIssues, hc, if_true] at h
          exact absurd h (by simp)
        · simp only [namingIssues, hc, if_true]
          have := ih.2
          omega
      · constructor
        · intro h
          simp only [namingIssues, hc, if_false] at h ⊢
          exact ih.1 h
        · simp only [namingIssues, hc, if_false]
          exact ih.2
    | classDef name ln =>
      by_cases hc : (!pyIstitle name) = true
      · constructor
        · intro h
          simp only [namingIssues, hc, if_true] at h
          exact absurd h (by simp)
        · simp only [namingIssues, hc, if_true]
          have := ih.2
          omega
      · constructor
        · intro h
          simp only [namingIssues, hc, if_false] at h ⊢
          exact ih.1 h
        · simp only [namingIssues, hc, if_false]
          exact ih.2
    | other =>
      constructor
      · intro h
        simp only [namingIssues] at h ⊢
        exact ih.1 h
      · simp only [namingIssues]
        exact ih.2

/-- The naming check: a successful outcome has no deduction without an
issue and never a negative deduction. -/
lemma check3_shape (env : CodeEnv) (codeOpt : Option String)
    (c3 : List CodeIssue × Int × List String)
    (h : check3 env codeOpt = .ok c3) :
    (c3.1 = [] → c3.2.1 = 0) ∧ 0 ≤ c3.2.1 := by
  unfold check3 at h
  cases codeOpt with
  | none => simp at h
  | some code =>
    dsimp only at h
    cases hp : env.parse code with
    | ok nodes =>
      rw [hp] at h
      dsimp only at h
      injection h with h
      subst h
      exact namingIssues_shape nodes
    | syntaxError m ln =>
      rw [hp] at h
      dsimp only at h
      injection h with h
      subst h
      constructor
      · intro h2; simp at h2
      · dsimp only; omega
    | otherError m =>
      rw [hp] at h
      simp at h

/-! ## The claims -/

/-- C1: for every command the risk_level field of analyze_command is the
maximum risk tier among the matching dangerous-pattern entries, combined
with the MEDIUM floor of the embedded-Python path, under the order LOW <
MEDIUM < HIGH < CRITICAL; a matched label outside that order (the DANGER
label of the first two table entries, which never escalates) has no rank
in the order and contributes nothing to the maximum.  In particular a
matched entry whose tier is ranked above LOW forces a risk level above
LOW. -/
theorem C1_risk_level_is_max_matched_tier
    (parse : String → ParseOutcome) (cmd : String) (r : CmdResult)
    (h : analyze_command parse cmd = .ok r) :
    r.risk_level =
      rankToStr (max (floorRank parse cmd) (maxTier (matchedEntries cmd))) ∧
    (∀ e ∈ matchedEntries cmd, ∀ k, tierRank? e.risk = some k → 0 < k →
      0 < strRank r.risk_level) := by
  rw [analyze_command_eq] at h
  injection h with h
  subst h
  refine ⟨resultOf_risk parse cmd, ?_⟩
  intro e he k hk hkpos
  rw [resultOf_risk]
  have h1 : tierRankD e.risk = k := by unfold tierRankD; rw [hk]; rfl
  have h2 : tierRankD e.risk ≤ maxTier (matchedEntries cmd) := by
    unfold maxTier
    exact mem_ranksMax (List.mem_map_of_mem _ he)
  have h3 : max (floorRank parse cmd) (maxTier (matchedEntries cmd)) ≤ 3 := by
    apply max_le
    · unfold floorRank; split_ifs <;> omega
    · exact ranksMax_le _
  rw [strRank_rankToStr h3]
  omega

/-- C1 witness: the theorem applied to the command sudo rm -rf /. -/
theorem C1_risk_level_witness :
    (resultOf parseOk0 "sudo rm -rf /").risk_level =
      rankToStr (max (floorRank parseOk0 "sudo rm -rf /")
        (maxTier (matchedEntries "sudo rm -rf /"))) ∧
    (∀ e ∈ matchedEntries "sudo rm -rf /", ∀ k, tierRank? e.risk = some k → 0 < k →
      0 < strRank (resultOf parseOk0 "sudo rm -rf /").risk_level) :=
  C1_risk_level_is_max_matched_tier parseOk0 "sudo rm -rf /"
    (resultOf parseOk0 "sudo rm -rf /") (analyze_command_eq _ _)

/-- C5: the risk level is monotone along the dangerous-pattern loop (a
later lower or equal tier never lowers an earlier elevation), and when
the command is classified Python-like and the syntax checker emits at
least one issue the final risk level is at least MEDIUM. -/
theorem C5_risk_monotone_and_medium_floor :
    (∀ (rl : String) (ts₁ ts₂ : List String),
        strRank (List.foldl escalate rl ts₁) ≤
          strRank (List.foldl escalate rl (ts₁ ++ ts₂))) ∧
    (∀ (parse : String → ParseOutcome) (cmd : String) (r : CmdResult),
        analyze_command parse cmd = .ok r →
        _looks_like_python cmd = true →
        _analyze_python_syntax_check parse cmd ≠ [] →
        1 ≤ strRank r.risk_level) := by
  constructor
  · intro rl ts₁ ts₂
    rw [List.foldl_append]
    exact foldl_escalate_mono ts₂ _
  · intro parse cmd r h hlook hne
    rw [analyze_command_eq] at h
    injection h with h
    subst h
    have hpy : pyIssuesOf parse cmd = _analyze_python_syntax_check parse cmd := by
      unfold pyIssuesOf
      rw [if_pos hlook]
    have hemp : (pyIssuesOf parse cmd).isEmpty = false := by
      rw [hpy]
      cases hl : _analyze_python_syntax_check parse cmd with
      | nil => exact absurd hl hne
      | cons a as => rfl
    have hfloor : floorRank parse cmd = 1 := by
      unfold floorRank
      rw [hemp]
      simp
    have hrisk : (resultOf parse cmd).risk_level =
        List.foldl escalate (rankToStr (floorRank parse cmd))
          (dRisksL (lowerOf cmd) dangerous_patterns) := rfl
    rw [hrisk, hfloor]
    have hm := foldl_escalate_mono (dRisksL (lowerOf cmd) dangerous_patterns)
      (rankToStr 1)
    have h1 : strRank (rankToStr 1) = 1 := by decide
    omega

/-- C5 witness: the monotone fold at a concrete list and the MEDIUM
floor at the command print x under a failing parser. -/
theorem C5_monotone_witness :
    strRank (List.foldl escalate "LOW" ["MEDIUM"]) ≤
      strRank (List.foldl escalate "LOW" (["MEDIUM"] ++ ["LOW"])) ∧
    1 ≤ strRank (resultOf parseSynBad "print x").risk_level :=
  ⟨C5_risk_monotone_and_medium_floor.1 "LOW" ["MEDIUM"] ["LOW"],
   C5_risk_monotone_and_medium_floor.2 parseSynBad "print x"
     (resultOf parseSynBad "print x") (analyze_command_eq _ _)
     (by decide) (by decide)⟩

/-- C9: analyze_command is a total function of the parser outcome and
the command: it never raises (the only partial operation, the index
access on the dangerous-pattern findall result, is always guarded by a
successful search of the same pattern), and its successful result is
unique. -/
theorem C9_analyze_command_total (parse : String → ParseOutcome) (cmd : String) :
    ∃ r, analyze_command parse cmd = .ok r ∧
      ∀ r', analyze_command parse cmd = .ok r' → r' = r := by
  refine ⟨resultOf parse cmd, analyze_command_eq parse cmd, ?_⟩
  intro r' h
  rw [analyze_command_eq] at h
  injection h with h
  exact h.symm

/-- C10: for every input the overall risk_level is one of the four
values LOW, MEDIUM, HIGH, CRITICAL; yet the command rm -rf / carries a
SECURITY issue whose per-issue risk field is DANGER, a value outside
that four-value scale. -/
theorem C10_risk_values_and_danger_issue :
    (∀ (parse : String → ParseOutcome) (cmd : String) (r : CmdResult),
        analyze_command parse cmd = .ok r →
        r.risk_level ∈ (["LOW", "MEDIUM", "HIGH", "CRITICAL"] : List String)) ∧
    (∃ r, analyze_command parseOk0 "rm -rf /" = .ok r ∧
      (∃ i ∈ r.issues, i.type = "SECURITY" ∧ i.risk = "DANGER") ∧
      "DANGER" ∉ (["LOW", "MEDIUM", "HIGH", "CRITICAL"] : List String)) := by
  constructor
  · intro parse cmd r h
    rw [analyze_command_eq] at h
    injection h with h
    subst h
    rw [resultOf_risk]
    exact rankToStr_mem _
  · exact ⟨resultOf parseOk0 "rm -rf /", analyze_command_eq _ _,
      by decide, by decide⟩

/-- C10 witness: the four-value range applied to the command ls. -/
theorem C10_risk_values_witness :
    (resultOf parseOk0 "ls").risk_level ∈
      (["LOW", "MEDIUM", "HIGH", "CRITICAL"] : List String) :=
  C10_risk_values_and_danger_issue.1 parseOk0 "ls" (resultOf parseOk0 "ls")
    (analyze_command_eq _ _)

/-- C7 counterexample: the typo scan is a case-sensitive literal
substring test, so the typo entry cd.. fires on the command cd.. but,
contrary to the claim, not on its upper cased variant CD.., whose
analysis carries no issue at all. -/
theorem C7_typo_scan_case_sensitive_cex :
    analyze_command parseOk0 "cd.." =
      .ok ⟨"cd..", [⟨"TYPO", "LOW", "Possible typo: cd.. should be cd ..", "cd.."⟩],
           [], "LOW", 1, 0, false, ""⟩ ∧
    analyze_command parseOk0 "CD.." =
      .ok ⟨"CD..", [], [], "LOW", 0, 0, false, ""⟩ := by
  refine ⟨?_, ?_⟩ <;> rw [analyze_command_eq] <;>
    exact congrArg Except.ok (by decide)

/-- C7 amended: the dangerous-pattern and best-practice scans are
case-insensitive (two commands equal up to letter case match exactly the
same table entries), while the typo scan fires exactly on the literal,
case-sensitive substring containment of each typo entry in the original
command text. -/
theorem C7_case_sensitivity_amended :
    (∀ cmd cmd' : String, lowerOf cmd = lowerOf cmd' →
        matchedEntries cmd = matchedEntries cmd' ∧
        bpFold (lowerOf cmd) best_practices = bpFold (lowerOf cmd') best_practices) ∧
    (∀ (parse : String → ParseOutcome) (cmd : String) (r : CmdResult),
        analyze_command parse cmd = .ok r →
        r.issues =
          pyIssuesOf parse cmd ++
            dIssuesL cmd.data (lowerOf cmd) dangerous_patterns ++
            common_typos.filterMap (fun tc =>
              if substrB tc.1.data cmd.data then
                some ⟨"TYPO", "LOW",
                  "Possible typo: " ++ tc.1 ++ " should be " ++ tc.2, tc.1⟩
              else none)) := by
  constructor
  · intro cmd cmd' h
    unfold matchedEntries
    rw [h]
    exact ⟨rfl, rfl⟩
  · intro parse cmd r h
    rw [analyze_command_eq] at h
    injection h with h
    subst h
    rfl

/-- C7 amended witness: case-insensitivity applied to GREP a versus
grep a, and the typo decomposition applied to the command cd... -/
theorem C7_amended_witness :
    (matchedEntries "GREP a" = matchedEntries "grep a" ∧
      bpFold (lowerOf "GREP a") best_practices =
        bpFold (lowerOf "grep a") best_practices) ∧
    (resultOf parseOk0 "cd..").issues =
      pyIssuesOf parseOk0 "cd.." ++
        dIssuesL "cd..".data (lowerOf "cd..") dangerous_patterns ++
        common_typos.filterMap (fun tc =>
          if substrB tc.1.data "cd..".data then
            some ⟨"TYPO", "LOW",
              "Possible typo: " ++ tc.1 ++ " should be " ++ tc.2, tc.1⟩
          else none) :=
  ⟨C7_case_sensitivity_amended.1 "GREP a" "grep a" (by decide),
   C7_case_sensitivity_amended.2 parseOk0 "cd.." (resultOf parseOk0 "cd..")
     (analyze_command_eq _ _)⟩

/-- C8: for every source string whose parse fails, the syntax and style
checker returns exactly one MEDIUM issue carrying the parser error text
in its message and the offending source as its part field; being a total
function of the parse outcome, it raises nothing past its boundary. -/
theorem C8_parse_failure_single_issue
    (parse : String → ParseOutcome) (cmd m : String)
    (h : parse cmd = .syntaxError m ∨ parse cmd = .otherError m) :
    (_analyze_python_syntax_check parse cmd).length = 1 ∧
    ∀ i ∈ _analyze_python_syntax_check parse cmd,
      i.risk = "MEDIUM" ∧ i.command_part = cmd ∧
      (i.message = "Syntax error: " ++ m ∨
        i.message = "Python parsing error: " ++ m) := by
  rcases h with h | h
  · simp only [_analyze_python_syntax_check, h]
    refine ⟨rfl, ?_⟩
    intro i hi
    rw [List.mem_singleton] at hi
    subst hi
    exact ⟨rfl, rfl, Or.inl rfl⟩
  · simp only [_analyze_python_syntax_check, h]
    refine ⟨rfl, ?_⟩
    intro i hi
    rw [List.mem_singleton] at hi
    subst hi
    exact ⟨rfl, rfl, Or.inr rfl⟩

/-- C8 witness: the theorem applied to a syntactically invalid source
under a parser reporting invalid syntax. -/
theorem C8_parse_failure_witness :
    (_analyze_python_syntax_check parseSynBad "def f(:").length = 1 ∧
    ∀ i ∈ _analyze_python_syntax_check parseSynBad "def f(:",
      i.risk = "MEDIUM" ∧ i.command_part = "def f(:" ∧
      (i.message = "Syntax error: " ++ "invalid syntax" ∨
        i.message = "Python parsing error: " ++ "invalid syntax") :=
  C8_parse_failure_single_issue parseSynBad "def f(:" "invalid syntax" (Or.inl rfl)

/-- C4: the docstring lookahead can never report an existing docstring
(the scanned line is stripped before the indentation test, so the first
non-empty following line always breaks the scan first), hence the
corrector inserts its placeholder block after every def and class
header; in particular a function whose body already starts with a
docstring still receives an insertion. -/
theorem C4_docstring_scan_never_detects :
    (∀ lines : List (List Char), scanDoc lines = false) ∧
    _generate_corrected_code "def f():\n    \"\"\"doc\"\"\"\n    pass" =
      "def f():\n    \"\"\"\n    Function description.\n    \"\"\"\n    \"\"\"doc\"\"\"\n    pass" := by
  constructor
  · intro lines
    induction lines with
    | nil => rfl
    | cons l rest ih =>
      cases hs : pyStrip l with
      | nil =>
        simp only [scanDoc, hs]
        simpa [isPrefB] using ih
      | cons c t =>
        have hc : isWsChar c = false := pyStrip_head_not_ws hs
        obtain ⟨h1, h2⟩ := not_ws_head_pref c t hc
        simp only [scanDoc, hs]
        simp [h1, h2]
  · decide

/-- C2: when the source file cannot be read, the complexity check does
append its single error issue, but analyze_code then raises instead of
returning a result: the naming walk reads the code variable that the
failed read never bound, and its handler catches only a SyntaxError, so
the NameError escapes. -/
theorem C2_unreadable_file_raises_nameError :
    analyze_code "missing.py" envMissing = .error .nameError ∧
    (check2 envMissing).1 =
      [⟨"error", "Complexity analysis failed: No such file or directory", 0⟩] :=
  ⟨rfl, rfl⟩

/-- C3: a file whose only definition is a plain lower case function
named main is flagged anyway: the naming condition requires an
underscore in every function name, so analyze_code emits the snake_case
warning, the rename suggestion and a minus two deduction, contrary to
the claim that lower case names pass. -/
theorem C3_lowercase_main_gets_flagged :
    analyze_code "main.py" envMain =
      .ok ⟨"main.py",
           [⟨"warning", "Function name main does not follow snake_case convention", 1⟩],
           98,
           ["Rename main to follow snake_case"],
           ["def main():", "    pass"],
           []⟩ :=
  rfl

/-- C6: every successful analyze_code result has a score between 0 and
100; the score is 100 minus a non-negative total deduction, clamped at
0; and a run in which the three checks produced no issue at all scores
exactly 100. -/
theorem C6_score_bounds (filepath : String) (env : CodeEnv) (r : CodeResult)
    (h : analyze_code filepath env = .ok r) :
    0 ≤ r.score ∧ r.score ≤ 100 ∧
    (∃ d : Int, 0 ≤ d ∧ r.score = max 0 (100 - d)) ∧
    (r.issues = [] → r.score = 100) := by
  unfold analyze_code at h
  split at h
  · simp at h
  · rename_i c3 heq
    injection h with h
    subst h
    obtain ⟨h1nil, h1pos⟩ := check1_shape env
    obtain ⟨h2nil, h2pos⟩ := check2_shape env
    obtain ⟨h3nil, h3pos⟩ := check3_shape env _ c3 heq
    refine ⟨le_max_left _ _, ?_, ?_, ?_⟩
    · exact max_le (by norm_num) (by omega)
    · refine ⟨(check1 env).2 + (check2 env).2.1 + c3.2.1, by omega, ?_⟩
      dsimp only
      congr 1
      omega
    · intro hiss
      dsimp only at hiss
      rw [List.append_eq_nil, List.append_eq_nil] at hiss
      obtain ⟨⟨ha, hb⟩, hc⟩ := hiss
      dsimp only
      rw [h1nil ha, h2nil hb, h3nil hc]
      norm_num

/-- C6 witness: the theorem applied to the clean environment. -/
theorem C6_score_witness :
    0 ≤ rClean.score ∧ rClean.score ≤ 100 ∧
    (∃ d : Int, 0 ≤ d ∧ rClean.score = max 0 (100 - d)) ∧
    (rClean.issues = [] → rClean.score = 100) :=
  C6_score_bounds "clean.py" envClean rClean rfl
